import Mathlib

/-!
Shallow embedding of the Equipment Lifecycle & Procurement Planning Engine
(services/degradationTracker.ts, services/inventoryManager.ts,
services/costCalculator.ts, services/equipmentManager.ts, utils/helpers.ts).

Modelling conventions:
* JS numbers are modelled by `ℚ` (money, degradation values, rates) and by
  `ℤ` where the data model declares integers (quantities, stock levels).
* Timestamps (`lastUpdated`, `requestDate`, dates) and random ids
  (`crypto.randomUUID()`) carry no verified content and are omitted from the
  records.
* Optional JS fields and JS truthiness tests (`if (usage.cycles)`,
  `x || default`) are modelled with `Option ℚ`; `0` is falsy, any nonzero
  value is truthy, exactly as in the source.
* `Array.prototype.sort` (stable since ES2019) is modelled by a stable
  insertion sort on the same comparator key.
* Division by zero: the source can produce `Infinity`/`NaN` when
  `maxValue = 0` or a degradation rate is `0`; the data model rules these out
  (`maxValue > 0`, `degradationRate > 0`).  Where a result genuinely becomes
  `Infinity` for a zero daily rate (`predictReplacement`) the embedding uses
  `Option ℤ` with `none` standing for the infinite horizon.
-/

namespace BusinessCosts

/-- Degradation axis, from `DegradationType` in src/types/equipment.ts. -/
inductive DegradationType
  | cycles
  | hours
  | time
deriving DecidableEq

/-- `DegradationParams` from src/types/equipment.ts (timestamp omitted). -/
structure DegradationParams where
  type : DegradationType
  maxValue : ℚ
  currentValue : ℚ
  replacementCost : ℚ
  degradationRate : ℚ
deriving DecidableEq

/-- One entry of `Equipment.consumables` in src/types/equipment.ts. -/
structure ConsumableLink where
  id : Nat
  unitsPerUse : ℚ
deriving DecidableEq

/-- `Equipment` from src/types/equipment.ts, restricted to the fields the
verified services read (category, descriptive fields, specifications and
documents are never consulted by them). -/
structure Equipment where
  id : Nat
  name : String
  acquisitionCost : ℚ
  quantity : ℤ
  inUse : ℤ
  consumables : List ConsumableLink
  degradation : DegradationParams
  personnelRequired : ℤ
deriving DecidableEq

/-- `Consumable` from src/types/equipment.ts. -/
structure Consumable where
  id : Nat
  name : String
  costPerUnit : ℚ
  stockLevel : ℤ
  minimumStock : ℤ
  reorderPoint : ℤ
deriving DecidableEq

/-- Health band returned by `getHealthStatus`. -/
inductive HealthLevel
  | good
  | fair
  | poor
  | critical
deriving DecidableEq

/-- Result record of `DegradationTrackerService.getHealthStatus`. -/
structure HealthStatus where
  status : HealthLevel
  message : String
  needsMaintenance : Bool
deriving DecidableEq

/-- Usage record passed to `calculateDegradation`; absent JS fields are
`none`. -/
structure Usage where
  cycles : Option ℚ := none
  hours : Option ℚ := none
  days : Option ℚ := none

/-- `usagePattern` argument of `predictMaintenanceNeeds` in
src/utils/helpers.ts. -/
structure UsagePattern where
  cyclesPerDay : Option ℚ := none
  hoursPerDay : Option ℚ := none

/-- `DegradationTrackerService.getHealthStatus` (degradationTracker.ts,
lines 115-147), factored through the degradation record it reads. -/
def getHealthStatusD (d : DegradationParams) : HealthStatus :=
  let healthPercentage := d.currentValue / d.maxValue * 100
  if healthPercentage > 75 then
    ⟨HealthLevel.good, "Equipment is in good condition", false⟩
  else if healthPercentage > 50 then
    ⟨HealthLevel.fair, "Equipment is functioning adequately", false⟩
  else if healthPercentage > 25 then
    ⟨HealthLevel.poor, "Equipment requires attention", true⟩
  else
    ⟨HealthLevel.critical, "Immediate maintenance required", true⟩

/-- `getHealthStatus` on an equipment record. -/
def getHealthStatus (e : Equipment) : HealthStatus :=
  getHealthStatusD e.degradation

/-- `DegradationTrackerService.calculateDegradation` (degradationTracker.ts,
lines 15-54) on the degradation record it destructures.  The JS guards
`if (usage.cycles)` etc. are truthiness tests: absent or zero usage leaves
the record unchanged. -/
def calculateDegradationD (d : DegradationParams) (usage : Usage) :
    DegradationParams :=
  match d.type with
  | DegradationType.cycles =>
    match usage.cycles with
    | some c =>
      if c = 0 then d
      else { d with currentValue := max 0 (d.currentValue - c * d.degradationRate) }
    | none => d
  | DegradationType.hours =>
    match usage.hours with
    | some h =>
      if h = 0 then d
      else { d with currentValue := max 0 (d.currentValue - h * d.degradationRate) }
    | none => d
  | DegradationType.time =>
    match usage.days with
    | some dd =>
      if dd = 0 then d
      else { d with currentValue := max 0 (d.currentValue - dd * d.degradationRate) }
    | none => d

/-- `calculateDegradation` on an equipment record. -/
def calculateDegradation (e : Equipment) (usage : Usage) : DegradationParams :=
  calculateDegradationD e.degradation usage

/-- `DegradationTrackerService.calculateMaintenanceCosts` (degradationTracker.ts,
lines 89-113); only the monthly cost is modelled (the yearly figure is
`12 * monthly` and the date is a timestamp). -/
def calculateMaintenanceCosts (e : Equipment) : ℚ :=
  let baseMaintenanceCost := e.acquisitionCost * 0.02
  let healthFactor := e.degradation.currentValue / e.degradation.maxValue
  baseMaintenanceCost * (2 - healthFactor)

/-- Result of `DegradationTrackerService.predictReplacement`;
`daysUntilReplacement = none` models the JS `Infinity`/`NaN` produced when
the daily rate is zero (in that case the source's `daysRemaining < 30`
comparisons are false, as they are here). -/
structure ReplacementPrediction where
  daysUntilReplacement : Option ℤ
  currentHealthPercentage : ℚ
deriving DecidableEq

/-- `DegradationTrackerService.predictReplacement` (degradationTracker.ts,
lines 56-87). -/
def predictReplacement (e : Equipment) : ReplacementPrediction :=
  let d := e.degradation
  let dailyRate : ℚ :=
    match d.type with
    | DegradationType.cycles => d.degradationRate * 1
    | DegradationType.hours => d.degradationRate * 24
    | DegradationType.time => d.degradationRate
  { daysUntilReplacement :=
      if dailyRate = 0 then none else some ⌊d.currentValue / dailyRate⌋
    currentHealthPercentage := d.currentValue / d.maxValue * 100 }

/-- The source's `replacementPrediction.daysUntilReplacement < 30` test. -/
def daysLt (p : Option ℤ) (n : ℤ) : Bool :=
  match p with
  | none => false
  | some k => decide (k < n)

/-- `calculateMaintenanceCost` from src/utils/helpers.ts (lines 24-28):
5% of acquisition cost scaled by `2 - healthFraction`. -/
def calculateMaintenanceCost (e : Equipment) : ℚ :=
  let baseMaintenanceCost := e.acquisitionCost * 0.05
  let degradationFactor := e.degradation.currentValue / e.degradation.maxValue
  baseMaintenanceCost * (2 - degradationFactor)

/-- Priority of a procurement or maintenance recommendation. -/
inductive Priority
  | high
  | medium
  | low
deriving DecidableEq

/-- The JS default `x || d`: `undefined` and `0` both fall back to `d`. -/
def orDefault (x : Option ℚ) (d : ℚ) : ℚ :=
  match x with
  | some v => if v = 0 then d else v
  | none => d

/-- Result record of `predictMaintenanceNeeds` (maintenance date omitted:
it is `today + daysUntilMaintenance`). -/
structure MaintenancePrediction where
  daysUntilMaintenance : ℤ
  estimatedCost : ℚ
  priority : Priority
deriving DecidableEq

/-- `predictMaintenanceNeeds` from src/utils/helpers.ts (lines 106-160).
The defaults are `cyclesPerDay || 1` and `hoursPerDay || 8`; the threshold
is hardcoded as `maxValue * 0.25`. -/
def predictMaintenanceNeeds (e : Equipment) (usagePattern : UsagePattern) :
    MaintenancePrediction :=
  let d := e.degradation
  let remainingValue := d.currentValue
  let threshold := d.maxValue * 0.25
  let daysUntilMaintenance : ℤ :=
    match d.type with
    | DegradationType.cycles =>
      let cyclesPerDay := orDefault usagePattern.cyclesPerDay 1
      ⌊(remainingValue - threshold) / (d.degradationRate * cyclesPerDay)⌋
    | DegradationType.hours =>
      let hoursPerDay := orDefault usagePattern.hoursPerDay 8
      ⌊(remainingValue - threshold) / (d.degradationRate * hoursPerDay)⌋
    | DegradationType.time =>
      ⌊(remainingValue - threshold) / d.degradationRate⌋
  { daysUntilMaintenance := daysUntilMaintenance
    estimatedCost := calculateMaintenanceCost e
    priority :=
      if daysUntilMaintenance ≤ 7 then Priority.high
      else if daysUntilMaintenance ≤ 30 then Priority.medium
      else Priority.low }

/-- Daily-equivalent degradation rate as the specification words it:
`cycles` converts by the cycles-per-day figure, `hours` by the
hours-per-day figure, `time` is already daily.  Stated from the spec text
for comparison with `predictMaintenanceNeeds`. -/
def specDailyRate (d : DegradationParams) (usagePattern : UsagePattern) : ℚ :=
  match d.type with
  | DegradationType.cycles => d.degradationRate * orDefault usagePattern.cyclesPerDay 1
  | DegradationType.hours => d.degradationRate * orDefault usagePattern.hoursPerDay 8
  | DegradationType.time => d.degradationRate

/-- Days remaining until the threshold as the specification words it:
`floor((currentValue - threshold) / dailyRate)` with the default threshold
`0.25 * maxValue`.  Stated from the spec text for comparison with
`predictMaintenanceNeeds`. -/
def specDaysRemaining (d : DegradationParams) (usagePattern : UsagePattern) : ℤ :=
  ⌊(d.currentValue - 0.25 * d.maxValue) / specDailyRate d usagePattern⌋

/-- Result record of `InventoryManagerService.getInventoryStatus`. -/
structure InventoryStatus where
  available : ℤ
  deployed : ℤ
  maintenance : ℤ
  degradationStatus : ℚ
deriving DecidableEq

/-- `InventoryManagerService.getInventoryStatus` (inventoryManager.ts,
lines 39-49). -/
def getInventoryStatus (e : Equipment) : InventoryStatus :=
  let degradation := getHealthStatus e
  let inMaintenance : ℤ := if degradation.needsMaintenance then 1 else 0
  { available := e.quantity - e.inUse - inMaintenance
    deployed := e.inUse
    maintenance := inMaintenance
    degradationStatus := e.degradation.currentValue / e.degradation.maxValue * 100 }

/-- Kind of an `InventoryTransaction` (src/types/inventory.ts); `ret` is the
source's `return`, which is a keyword here. -/
inductive TxType
  | acquisition
  | deployment
  | ret
  | disposal
deriving DecidableEq

/-- `InventoryTransaction` from src/types/inventory.ts (id, date, notes and
optional fields omitted). -/
structure InventoryTransaction where
  equipmentId : Nat
  type : TxType
  quantity : ℤ
deriving DecidableEq

/-- Result record of `processEquipmentTransaction`; a failed transaction
carries no `updatedEquipment`. -/
structure TxResult where
  success : Bool
  message : String
  updatedEquipment : Option Equipment := none
deriving DecidableEq

/-- `InventoryManagerService.processEquipmentTransaction`
(inventoryManager.ts, lines 51-116). -/
def processEquipmentTransaction (transaction : InventoryTransaction)
    (equipment : List Equipment) : TxResult :=
  match equipment.find? (fun e => e.id == transaction.equipmentId) with
  | none => { success := false, message := "Equipment not found" }
  | some equipmentItem =>
    let status := getInventoryStatus equipmentItem
    match transaction.type with
    | TxType.acquisition =>
      { success := true
        message := "Transaction processed successfully"
        updatedEquipment :=
          some { equipmentItem with
                   quantity := equipmentItem.quantity + transaction.quantity } }
    | TxType.deployment =>
      if status.available < transaction.quantity then
        { success := false, message := "Insufficient available equipment" }
      else
        { success := true
          message := "Transaction processed successfully"
          updatedEquipment :=
            some { equipmentItem with
                     inUse := equipmentItem.inUse + transaction.quantity } }
    | TxType.ret =>
      if equipmentItem.inUse < transaction.quantity then
        { success := false, message := "Invalid return quantity" }
      else
        let updated := { equipmentItem with
                           inUse := equipmentItem.inUse - transaction.quantity }
        { success := true
          message := "Transaction processed successfully"
          updatedEquipment :=
            some { updated with
                     degradation :=
                       calculateDegradation updated { cycles := some 1 } } }
    | TxType.disposal =>
      if equipmentItem.quantity < transaction.quantity then
        { success := false, message := "Invalid disposal quantity" }
      else
        { success := true
          message := "Transaction processed successfully"
          updatedEquipment :=
            some { equipmentItem with
                     quantity := equipmentItem.quantity - transaction.quantity } }

/-- Applying one transaction to a single asset: the accepted (`success=true`)
post-state, or `none` when the transaction is rejected. -/
def applyTx (e : Equipment) (transaction : InventoryTransaction) :
    Option Equipment :=
  let r := processEquipmentTransaction transaction [e]
  if r.success then r.updatedEquipment else none

/-- A sequence of transactions in which every step is accepted. -/
def applyTxs (e : Equipment) (txs : List InventoryTransaction) :
    Option Equipment :=
  txs.foldlM applyTx e

/-- Kind of a procurement need. -/
inductive ItemType
  | equipment
  | consumable
deriving DecidableEq

/-- `ProcurementNeed` from src/types/inventory.ts (random id, request date
and the constant initial status `pending` omitted). -/
structure ProcurementNeed where
  itemType : ItemType
  itemId : Nat
  quantity : ℤ
  estimatedCost : ℚ
  priority : Priority
  reason : String
deriving DecidableEq

/-- The `priorityOrder` table inside the sort comparator of
`generateProcurementNeeds` (inventoryManager.ts, lines 282-285). -/
def priorityOrder (p : Priority) : ℤ :=
  match p with
  | Priority.high => 0
  | Priority.medium => 1
  | Priority.low => 2

/-- Per-equipment body of `generateProcurementNeeds` (inventoryManager.ts,
lines 241-262): a need is emitted when fewer than two units are available or
replacement is predicted within 30 days. -/
def equipmentNeed (eq : Equipment) : Option ProcurementNeed :=
  let status := getInventoryStatus eq
  let replacementPrediction := predictReplacement eq
  let replacementSoon := daysLt replacementPrediction.daysUntilReplacement 30
  if status.available < 2 ∨ replacementSoon then
    some { itemType := ItemType.equipment
           itemId := eq.id
           quantity := max (2 - status.available) 0 +
                       (if replacementSoon then 1 else 0)
           estimatedCost := eq.acquisitionCost
           priority := if status.available = 0 then Priority.high
                       else Priority.medium
           reason := if status.available < 2 then "Low stock level"
                     else "Upcoming replacement needed" }
  else none

/-- Per-consumable body of `generateProcurementNeeds` (inventoryManager.ts,
lines 265-280). -/
def consumableNeed (c : Consumable) : Option ProcurementNeed :=
  if c.stockLevel ≤ c.reorderPoint then
    let orderQuantity := c.reorderPoint * 2 - c.stockLevel
    some { itemType := ItemType.consumable
           itemId := c.id
           quantity := orderQuantity
           estimatedCost := (orderQuantity : ℚ) * c.costPerUnit
           priority := if c.stockLevel ≤ c.minimumStock then Priority.high
                       else Priority.medium
           reason := "Stock below reorder point" }
  else none

/-- Stable insertion step: `n` goes after every already-placed need whose
priority rank is at most its own, matching the stable
`needs.sort((a, b) => priorityOrder[a] - priorityOrder[b])`. -/
def insertByPriority (n : ProcurementNeed) :
    List ProcurementNeed → List ProcurementNeed
  | [] => [n]
  | m :: rest =>
    if priorityOrder m.priority ≤ priorityOrder n.priority then
      m :: insertByPriority n rest
    else n :: m :: rest

/-- Stable sort by priority rank (high before medium before low). -/
def sortByPriority : List ProcurementNeed → List ProcurementNeed
  | [] => []
  | n :: rest => insertByPriority n (sortByPriority rest)

/-- `InventoryManagerService.generateProcurementNeeds` (inventoryManager.ts,
lines 234-286): equipment needs in input order, then consumable needs in
input order, stably sorted by priority. -/
def generateProcurementNeeds (equipment : List Equipment)
    (consumables : List Consumable) : List ProcurementNeed :=
  let needs := equipment.filterMap equipmentNeed ++
               consumables.filterMap consumableNeed
  sortByPriority needs

/-- Equipment step of `generateProcurementPlan` (helpers.ts, lines 294-310):
a high-priority maintenance prediction buys one replacement unit when the
remaining budget covers the acquisition cost. -/
def planEquipmentStep (acc : List ProcurementNeed × ℚ) (eq : Equipment) :
    List ProcurementNeed × ℚ :=
  if (predictMaintenanceNeeds eq {}).priority = Priority.high ∧
      acc.2 ≥ eq.acquisitionCost then
    (acc.1 ++ [{ itemType := ItemType.equipment
                 itemId := eq.id
                 quantity := 1
                 estimatedCost := eq.acquisitionCost
                 priority := Priority.high
                 reason := "Critical replacement needed" }],
     acc.2 - eq.acquisitionCost)
  else acc

/-- The `orderQuantity` of the consumable step of `generateProcurementPlan`
(helpers.ts, lines 317-320). -/
def consumableOrderQuantity (c : Consumable) : ℤ :=
  max (c.reorderPoint - c.stockLevel) ⌈(c.minimumStock : ℚ) * 1.5⌉

/-- The `cost` of the consumable step of `generateProcurementPlan`
(helpers.ts, line 321). -/
def consumableOrderCost (c : Consumable) : ℚ :=
  (consumableOrderQuantity c : ℚ) * c.costPerUnit

/-- Consumable step of `generateProcurementPlan` (helpers.ts,
lines 316-337). -/
def planConsumableStep (acc : List ProcurementNeed × ℚ) (c : Consumable) :
    List ProcurementNeed × ℚ :=
  if acc.2 ≥ consumableOrderCost c then
    (acc.1 ++ [{ itemType := ItemType.consumable
                 itemId := c.id
                 quantity := consumableOrderQuantity c
                 estimatedCost := consumableOrderCost c
                 priority := if c.stockLevel = 0 then Priority.high
                             else Priority.medium
                 reason := "Stock level below minimum" }],
     acc.2 - consumableOrderCost c)
  else acc

/-- Depletion key `stockLevel / minimumStock` of the consumable sort in
`generateProcurementPlan` (helpers.ts, line 315). -/
def depletionKey (c : Consumable) : ℚ :=
  (c.stockLevel : ℚ) / (c.minimumStock : ℚ)

/-- Stable insertion step for the ascending depletion sort. -/
def insertByDepletion (c : Consumable) : List Consumable → List Consumable
  | [] => [c]
  | d :: rest =>
    if depletionKey d ≤ depletionKey c then d :: insertByDepletion c rest
    else c :: d :: rest

/-- Stable sort of consumables, most depleted first. -/
def sortByDepletion : List Consumable → List Consumable
  | [] => []
  | c :: rest => insertByDepletion c (sortByDepletion rest)

/-- `generateProcurementPlan` from src/utils/helpers.ts (lines 285-340):
equipment needs first in input order, then consumables below minimum stock
sorted ascending by depletion, each accepted only while its cost fits the
remaining budget. -/
def generateProcurementPlan (equipment : List Equipment)
    (consumables : List Consumable) (budget : ℚ) : List ProcurementNeed :=
  let afterEquipment := equipment.foldl planEquipmentStep ([], budget)
  let eligible := sortByDepletion
    (consumables.filter (fun c => c.stockLevel ≤ c.minimumStock))
  (eligible.foldl planConsumableStep afterEquipment).1

/-- `CostCalculatorService.PERSONNEL_COST_PER_MONTH`. -/
def PERSONNEL_COST_PER_MONTH : ℚ := 5000

/-- `CostCalculatorService.CONSUMABLE_BASE_COST`. -/
def CONSUMABLE_BASE_COST : ℚ := 100

/-- `CostCalculatorService.calculateOperationalCost` (costCalculator.ts,
lines 184-194): 10% of acquisition cost scaled by a health-band factor. -/
def calculateOperationalCostSvc (e : Equipment) : ℚ :=
  let baseCost := e.acquisitionCost * 0.1
  let degradation := getHealthStatus e
  let healthFactor : ℚ :=
    if degradation.status = HealthLevel.good then 1
    else if degradation.status = HealthLevel.fair then 1.2
    else if degradation.status = HealthLevel.poor then 1.5
    else 2
  baseCost * healthFactor

/-- `CostCalculatorService.calculatePersonnelCost` (costCalculator.ts,
lines 196-198). -/
def calculatePersonnelCost (e : Equipment) : ℚ :=
  (e.personnelRequired : ℚ) * PERSONNEL_COST_PER_MONTH

/-- `CostCalculatorService.calculateConsumablesCost` (costCalculator.ts,
lines 200-204). -/
def calculateConsumablesCost (e : Equipment) : ℚ :=
  e.consumables.foldl
    (fun total consumable => total + consumable.unitsPerUse * CONSUMABLE_BASE_COST) 0

/-- Cost breakdown record (costCalculator.ts; the optional `details` block is
presentation data and is omitted). -/
structure CostBreakdown where
  acquisition : ℚ
  operational : ℚ
  maintenance : ℚ
  personnel : ℚ
  consumables : ℚ
  total : ℚ
deriving DecidableEq

/-- `CostCalculatorService.calculateEquipmentCosts` (costCalculator.ts,
lines 57-89). -/
def calculateEquipmentCosts (e : Equipment) : CostBreakdown :=
  let maintenanceMonthly := calculateMaintenanceCosts e
  let operationalCost := calculateOperationalCostSvc e
  let personnelCost := calculatePersonnelCost e
  let consumablesCost := calculateConsumablesCost e
  { acquisition := e.acquisitionCost
    operational := operationalCost
    maintenance := maintenanceMonthly
    personnel := personnelCost
    consumables := consumablesCost
    total := e.acquisitionCost + operationalCost + maintenanceMonthly +
             personnelCost + consumablesCost }

/-- One asset's contribution to the month-`index` projection inside
`CostCalculatorService.projectCosts` (costCalculator.ts, lines 145-157): the
simulated usage is `{ days: 30 * index }`, so only `time`-type degradation
reacts to it.  The `total` field of the accumulator is finalized afterwards
as the sum of the other five fields. -/
def monthlyItemContribution (item : Equipment) (index : ℕ) : CostBreakdown :=
  let costs := calculateEquipmentCosts item
  let degradation := calculateDegradation item { days := some ((30 : ℚ) * index) }
  let degradationFactor := degradation.currentValue / degradation.maxValue
  { acquisition := costs.acquisition / 12
    operational := costs.operational * degradationFactor
    maintenance := costs.maintenance * (2 - degradationFactor)
    personnel := costs.personnel
    consumables := costs.consumables
    total := 0 }

/-- Elementwise sum of two cost breakdowns, as accumulated by the reduce in
`projectCosts`. -/
def addBreakdown (a b : CostBreakdown) : CostBreakdown :=
  { acquisition := a.acquisition + b.acquisition
    operational := a.operational + b.operational
    maintenance := a.maintenance + b.maintenance
    personnel := a.personnel + b.personnel
    consumables := a.consumables + b.consumables
    total := a.total + b.total }

/-- The month-`index` breakdown of `projectCosts` (costCalculator.ts,
lines 141-169), with `total` finalized as the sum of the five components. -/
def monthlyProjection (equipment : List Equipment) (index : ℕ) : CostBreakdown :=
  let monthlyCosts := equipment.foldl
    (fun total item => addBreakdown total (monthlyItemContribution item index))
    { acquisition := 0, operational := 0, maintenance := 0, personnel := 0
      consumables := 0, total := 0 }
  { monthlyCosts with
      total := monthlyCosts.acquisition + monthlyCosts.operational +
               monthlyCosts.maintenance + monthlyCosts.personnel +
               monthlyCosts.consumables }

/-- `projectCosts`' list of monthly breakdowns for a horizon of `months`
periods (indices `0 .. months-1`). -/
def projectCostsMonthly (equipment : List Equipment) (months : ℕ) :
    List CostBreakdown :=
  (List.range months).map (monthlyProjection equipment)

/-- One `{ id, quantity }` line item of an `EquipmentCombination`
(src/types/equipment.ts). -/
structure CombinationItem where
  id : Nat
  quantity : ℤ
deriving DecidableEq

/-- The registered-equipment store of `EquipmentManagerService`
(equipmentManager.ts): a `Map` keyed by equipment id, modelled as the list of
registered records looked up by id. -/
structure ManagerState where
  equipment : List Equipment
deriving DecidableEq

/-- `EquipmentManagerService.getEquipment` as a lookup; `none` models the
thrown `Equipment with ID ... not found`, which `validateCombination`
catches. -/
def getEquipmentById (st : ManagerState) (id : Nat) : Option Equipment :=
  st.equipment.find? (fun e => e.id == id)

/-- Modelled from the spec: `DegradationTrackerService.getDegradation` is
referenced by equipmentManager.ts but its definition is not in the
repository snapshot.  Per the data model every asset owns exactly one
`DegradationState`, initialized at registration from the asset record
(`initializeEquipment`), so the lookup returns the registered asset's
degradation state. -/
def getDegradation (st : ManagerState) (id : Nat) : Option DegradationParams :=
  (getEquipmentById st id).map Equipment.degradation

/-- Result record of `EquipmentManagerService.validateCombination`. -/
structure ValidationResult where
  valid : Bool
  message : Option String
deriving DecidableEq

/-- `EquipmentManagerService.validateCombination` (equipmentManager.ts,
lines 122-155): line items are checked in order; the first unresolved id,
shortage, or degradation `currentValue < 25` stops the scan with a message. -/
def validateCombination (st : ManagerState) :
    List CombinationItem → ValidationResult
  | [] => { valid := true, message := none }
  | item :: rest =>
    match getEquipmentById st item.id with
    | none =>
      { valid := false
        message := some "Equipment not found" }
    | some equipment =>
      let available := equipment.quantity - equipment.inUse
      if available < item.quantity then
        { valid := false
          message := some ("Insufficient quantity of " ++ equipment.name ++
                           " available") }
      else
        match getDegradation st item.id with
        | none =>
          { valid := false
            message := some "Degradation state not found" }
        | some degradation =>
          if degradation.currentValue < 25 then
            { valid := false
              message := some (equipment.name ++
                               " requires maintenance before use") }
          else validateCombination st rest

/-!
Heap embedding of the two transaction processors, for the frame property:
JS records live on a heap of objects addressed by allocation index, the
caller's array is a list of addresses, `{ ...obj }` allocates a copy, and a
field assignment writes at the object's address.  An equipment object holds
its nested degradation record by reference, exactly as a JS object does, so
the spread copy shares the original degradation object until the `return`
branch replaces the reference with a freshly allocated copy.
-/

/-- Heap layout of an `Equipment` object: the fields the transaction
processor touches, with the nested degradation record held by address. -/
structure EquipObj where
  id : Nat
  quantity : ℤ
  inUse : ℤ
  degradation : Nat
deriving DecidableEq

/-- Heap layout of a `Consumable` object. -/
structure ConsObj where
  id : Nat
  stockLevel : ℤ
  reorderPoint : ℤ
deriving DecidableEq

/-- A heap cell: an equipment record, a degradation record, or a consumable
record. -/
inductive HObj
  | equip (e : EquipObj)
  | deg (d : DegradationParams)
  | cons (c : ConsObj)
deriving DecidableEq

/-- The heap: objects addressed by allocation index. -/
abbrev Heap := List HObj

/-- `equipment.find(e => e.id === transaction.equipmentId)` over an array of
object references. -/
def findEquipAddr (h : Heap) (addrs : List Nat) (eid : Nat) :
    Option (Nat × EquipObj) :=
  match addrs with
  | [] => none
  | a :: rest =>
    match h[a]? with
    | some (HObj.equip e) =>
      if e.id = eid then some (a, e) else findEquipAddr h rest eid
    | _ => findEquipAddr h rest eid

/-- `consumables.find(c => c.id === transaction.consumableId)` over an array
of object references. -/
def findConsAddr (h : Heap) (addrs : List Nat) (cid : Nat) :
    Option (Nat × ConsObj) :=
  match addrs with
  | [] => none
  | a :: rest =>
    match h[a]? with
    | some (HObj.cons c) =>
      if c.id = cid then some (a, c) else findConsAddr h rest cid
    | _ => findConsAddr h rest cid

/-- `processEquipmentTransaction` as a heap transformer (inventoryManager.ts,
lines 51-116).  `const updatedEquipment = { ...equipmentItem }` allocates a
copy at the next free address; every subsequent field write targets that
copy.  In the `return` branch `calculateDegradation` allocates a fresh
degradation record (`{ ...degradation }`) and the copy's reference is
redirected to it.  Returns the final heap and the `success` flag. -/
def processEquipmentTransactionH (transaction : InventoryTransaction)
    (equipmentRefs : List Nat) (h : Heap) : Heap × Bool :=
  match findEquipAddr h equipmentRefs transaction.equipmentId with
  | none => (h, false)
  | some (_, e) =>
    match h[e.degradation]? with
    | some (HObj.deg d) =>
      let u := h.length
      let h1 := h ++ [HObj.equip e]
      match transaction.type with
      | TxType.acquisition =>
        (h1.set u (HObj.equip
          { e with quantity := e.quantity + transaction.quantity }), true)
      | TxType.deployment =>
        let inMaintenance : ℤ :=
          if (getHealthStatusD d).needsMaintenance then 1 else 0
        if e.quantity - e.inUse - inMaintenance < transaction.quantity then
          (h1, false)
        else
          (h1.set u (HObj.equip
            { e with inUse := e.inUse + transaction.quantity }), true)
      | TxType.ret =>
        if e.inUse < transaction.quantity then (h1, false)
        else
          let h2 := h1.set u (HObj.equip
            { e with inUse := e.inUse - transaction.quantity })
          let v := h2.length
          let h3 := h2 ++ [HObj.deg (calculateDegradationD d { cycles := some 1 })]
          (h3.set u (HObj.equip
            { e with inUse := e.inUse - transaction.quantity
                     degradation := v }), true)
      | TxType.disposal =>
        if e.quantity < transaction.quantity then (h1, false)
        else
          (h1.set u (HObj.equip
            { e with quantity := e.quantity - transaction.quantity }), true)
    | _ => (h, false)

/-- Kind of a `ConsumableTransaction` (src/types/inventory.ts). -/
inductive ConsTxType
  | purchase
  | use
  | disposal
deriving DecidableEq

/-- `ConsumableTransaction` from src/types/inventory.ts (id, date and
optional fields omitted). -/
structure ConsumableTransaction where
  consumableId : Nat
  type : ConsTxType
  quantity : ℤ
deriving DecidableEq

/-- `processConsumableTransaction` as a heap transformer
(inventoryManager.ts, lines 118-173).  The reorder check only logs
(`triggerReorder` is a `console.log`), so it has no heap effect. -/
def processConsumableTransactionH (transaction : ConsumableTransaction)
    (consumableRefs : List Nat) (h : Heap) : Heap × Bool :=
  match findConsAddr h consumableRefs transaction.consumableId with
  | none => (h, false)
  | some (_, c) =>
    let u := h.length
    let h1 := h ++ [HObj.cons c]
    match transaction.type with
    | ConsTxType.purchase =>
      (h1.set u (HObj.cons
        { c with stockLevel := c.stockLevel + transaction.quantity }), true)
    | ConsTxType.use =>
      if c.stockLevel < transaction.quantity then (h1, false)
      else
        (h1.set u (HObj.cons
          { c with stockLevel := c.stockLevel - transaction.quantity }), true)
    | ConsTxType.disposal =>
      if c.stockLevel < transaction.quantity then (h1, false)
      else
        (h1.set u (HObj.cons
          { c with stockLevel := c.stockLevel - transaction.quantity }), true)

/-!
Concrete records used by counterexamples and witnesses.
-/

/-- The spec's scenario asset: five units, none deployed, full health. -/
def sampleAsset : Equipment :=
  { id := 1
    name := "Platform A"
    acquisitionCost := 1000
    quantity := 5
    inUse := 0
    consumables := []
    degradation :=
      { type := DegradationType.cycles
        maxValue := 100
        currentValue := 100
        replacementCost := 0
        degradationRate := 1 }
    personnelRequired := 2 }

/-- A healthy asset with three of five units deployed. -/
def deployedAsset : Equipment :=
  { sampleAsset with inUse := 3 }

/-- An asset whose health fraction is exactly 75%. -/
def boundaryAsset : Equipment :=
  { sampleAsset with
      degradation := { sampleAsset.degradation with currentValue := 75 } }

/-- An asset with `currentValue = 40` out of `maxValue = 200`: health
fraction 20%, absolute degradation value well above 25. -/
def fractionAsset : Equipment :=
  { sampleAsset with
      id := 9
      name := "Sensor B"
      quantity := 1
      degradation :=
        { type := DegradationType.cycles
          maxValue := 200
          currentValue := 40
          replacementCost := 0
          degradationRate := 1 } }

/-- The spec's scenario consumable: stock 5, minimum 10, reorder point 20. -/
def sampleConsumable : Consumable :=
  { id := 7
    name := "Battery"
    costPerUnit := 2
    stockLevel := 5
    minimumStock := 10
    reorderPoint := 20 }

/-!
Theorems.
-/

/-- Band characterization of `getHealthStatusD`: shared helper. -/
theorem getHealthStatusD_cases (d : DegradationParams) :
    (((getHealthStatusD d).status = HealthLevel.good ↔
        3 / 4 < d.currentValue / d.maxValue) ∧
      ((getHealthStatusD d).status = HealthLevel.fair ↔
        1 / 2 < d.currentValue / d.maxValue ∧ d.currentValue / d.maxValue ≤ 3 / 4) ∧
      ((getHealthStatusD d).status = HealthLevel.poor ↔
        1 / 4 < d.currentValue / d.maxValue ∧ d.currentValue / d.maxValue ≤ 1 / 2) ∧
      ((getHealthStatusD d).status = HealthLevel.critical ↔
        d.currentValue / d.maxValue ≤ 1 / 4)) ∧
    ((getHealthStatusD d).needsMaintenance = true ↔
      (getHealthStatusD d).status = HealthLevel.poor ∨
        (getHealthStatusD d).status = HealthLevel.critical) := by
  unfold getHealthStatusD
  dsimp only
  set frac := d.currentValue / d.maxValue with hfrac
  split_ifs with h1 h2 h3 <;> dsimp only
  · refine ⟨⟨?_, ?_, ?_, ?_⟩, ?_⟩
    · exact ⟨fun _ => (by linarith), fun _ => rfl⟩
    · exact ⟨fun hx => (nomatch hx), fun hx => absurd hx.2 (not_le.mpr (by linarith))⟩
    · exact ⟨fun hx => (nomatch hx), fun hx => absurd hx.2 (not_le.mpr (by linarith))⟩
    · exact ⟨fun hx => (nomatch hx), fun hx => absurd hx (not_le.mpr (by linarith))⟩
    · exact ⟨fun hx => (nomatch hx), fun hx => hx.elim (fun h => nomatch h) (fun h => nomatch h)⟩
  · refine ⟨⟨?_, ?_, ?_, ?_⟩, ?_⟩
    · exact ⟨fun hx => (nomatch hx),
             fun hx => absurd hx (not_lt.mpr (by push_neg at h1; linarith))⟩
    · exact ⟨fun _ => ⟨(by linarith), (by push_neg at h1; linarith)⟩, fun _ => rfl⟩
    · exact ⟨fun hx => (nomatch hx), fun hx => absurd hx.2 (not_le.mpr (by linarith))⟩
    · exact ⟨fun hx => (nomatch hx), fun hx => absurd hx (not_le.mpr (by linarith))⟩
    · exact ⟨fun hx => (nomatch hx), fun hx => hx.elim (fun h => nomatch h) (fun h => nomatch h)⟩
  · refine ⟨⟨?_, ?_, ?_, ?_⟩, ?_⟩
    · exact ⟨fun hx => (nomatch hx),
             fun hx => absurd hx (not_lt.mpr (by push_neg at h1; linarith))⟩
    · exact ⟨fun hx => (nomatch hx),
             fun hx => absurd hx.1 (not_lt.mpr (by push_neg at h2; linarith))⟩
    · exact ⟨fun _ => ⟨(by linarith), (by push_neg at h2; linarith)⟩, fun _ => rfl⟩
    · exact ⟨fun hx => (nomatch hx), fun hx => absurd hx (not_le.mpr (by linarith))⟩
    · exact ⟨fun _ => Or.inl rfl, fun _ => rfl⟩
  · refine ⟨⟨?_, ?_, ?_, ?_⟩, ?_⟩
    · exact ⟨fun hx => (nomatch hx),
             fun hx => absurd hx (not_lt.mpr (by push_neg at h1; linarith))⟩
    · exact ⟨fun hx => (nomatch hx),
             fun hx => absurd hx.1 (not_lt.mpr (by push_neg at h2; linarith))⟩
    · exact ⟨fun hx => (nomatch hx),
             fun hx => absurd hx.1 (not_lt.mpr (by push_neg at h3; linarith))⟩
    · exact ⟨fun _ => (by push_neg at h3; linarith), fun _ => rfl⟩
    · exact ⟨fun _ => Or.inr rfl, fun _ => rfl⟩

/-- C3 (amended): `healthStatus` is a pure function of the health fraction
`currentValue / maxValue` with strict bands — good iff the fraction exceeds
3/4, fair iff it lies in (1/2, 3/4], poor iff in (1/4, 1/2], critical iff at
most 1/4 — so each boundary value belongs to the LOWER band (exactly 75% is
fair, 50% is poor, 25% is critical), and `needsMaintenance` holds exactly
when the status is poor or critical. -/
theorem healthStatus_band_characterization (e : Equipment) :
    (((getHealthStatus e).status = HealthLevel.good ↔
        3 / 4 < e.degradation.currentValue / e.degradation.maxValue) ∧
      ((getHealthStatus e).status = HealthLevel.fair ↔
        1 / 2 < e.degradation.currentValue / e.degradation.maxValue ∧
          e.degradation.currentValue / e.degradation.maxValue ≤ 3 / 4) ∧
      ((getHealthStatus e).status = HealthLevel.poor ↔
        1 / 4 < e.degradation.currentValue / e.degradation.maxValue ∧
          e.degradation.currentValue / e.degradation.maxValue ≤ 1 / 2) ∧
      ((getHealthStatus e).status = HealthLevel.critical ↔
        e.degradation.currentValue / e.degradation.maxValue ≤ 1 / 4)) ∧
    ((getHealthStatus e).needsMaintenance = true ↔
      (getHealthStatus e).status = HealthLevel.poor ∨
        (getHealthStatus e).status = HealthLevel.critical) :=
  getHealthStatusD_cases e.degradation

/-- C3 counterexample: at health fraction exactly 75% the status computed by
the source's strict `>` comparisons is `fair`, not `good` as the claim
states. -/
theorem healthStatus_boundary75_is_fair :
    (getHealthStatus boundaryAsset).status = HealthLevel.fair ∧
    (getHealthStatus boundaryAsset).status ≠ HealthLevel.good ∧
    boundaryAsset.degradation.currentValue / boundaryAsset.degradation.maxValue
      = 3 / 4 := by
  refine ⟨?_, ?_, ?_⟩ <;>
    norm_num [getHealthStatus, getHealthStatusD, boundaryAsset, sampleAsset] <;>
    decide

/-- C2: for a degradation state with positive rate and
`0 ≤ currentValue ≤ maxValue`, `predictMaintenanceNeeds` returns exactly the
spec's `floor((currentValue - threshold) / dailyRate)` with the default
threshold `0.25 * maxValue`, converting the rate to a daily rate by type
(cycles: rate times cycles per day, hours: rate times hours per day, time:
rate as-is). -/
theorem predictMaintenanceNeeds_matches_spec (e : Equipment)
    (usagePattern : UsagePattern)
    (hrate : 0 < e.degradation.degradationRate)
    (hcur : 0 ≤ e.degradation.currentValue)
    (hmax : e.degradation.currentValue ≤ e.degradation.maxValue) :
    (predictMaintenanceNeeds e usagePattern).daysUntilMaintenance =
      specDaysRemaining e.degradation usagePattern := by
  unfold predictMaintenanceNeeds specDaysRemaining specDailyRate
  cases htype : e.degradation.type <;>
    simp only [htype] <;> (congr 1; ring)

/-- C2 witness: the prediction formula agrees with the spec formula on the
sample asset. -/
theorem predictMaintenanceNeeds_matches_spec_witness :
    (0 < sampleAsset.degradation.degradationRate ∧
      0 ≤ sampleAsset.degradation.currentValue ∧
      sampleAsset.degradation.currentValue ≤ sampleAsset.degradation.maxValue) ∧
    (predictMaintenanceNeeds sampleAsset {}).daysUntilMaintenance =
      specDaysRemaining sampleAsset.degradation {} :=
  ⟨⟨(by norm_num [sampleAsset]), (by norm_num [sampleAsset]),
    (by norm_num [sampleAsset])⟩,
   predictMaintenanceNeeds_matches_spec sampleAsset {}
     (by norm_num [sampleAsset]) (by norm_num [sampleAsset])
     (by norm_num [sampleAsset])⟩

/-- C4: a deployment transaction on the asset its id resolves to succeeds
exactly when the requested quantity is at most
`available = quantity - inUse - (1 if needsMaintenance else 0)`; on failure
the result reports insufficient stock and carries no updated asset, and on
success the updated asset differs from the original only by
`inUse + tx.quantity`. -/
theorem deployment_availability_check (tx : InventoryTransaction)
    (equipment : List Equipment) (e : Equipment)
    (htype : tx.type = TxType.deployment)
    (hfind : equipment.find? (fun x => x.id == tx.equipmentId) = some e) :
    ((processEquipmentTransaction tx equipment).success = true ↔
      tx.quantity ≤ (getInventoryStatus e).available) ∧
    ((processEquipmentTransaction tx equipment).success = false →
      (processEquipmentTransaction tx equipment).message =
        "Insufficient available equipment" ∧
      (processEquipmentTransaction tx equipment).updatedEquipment = none) ∧
    ((processEquipmentTransaction tx equipment).success = true →
      (processEquipmentTransaction tx equipment).updatedEquipment =
        some { e with inUse := e.inUse + tx.quantity }) := by
  unfold processEquipmentTransaction
  rw [hfind, htype]
  dsimp only
  by_cases hav : (getInventoryStatus e).available < tx.quantity
  · rw [if_pos hav]
    exact ⟨⟨fun hx => (nomatch hx), fun hx => absurd hx (not_le.mpr hav)⟩,
           fun _ => ⟨rfl, rfl⟩, fun hx => (nomatch hx)⟩
  · rw [if_neg hav]
    exact ⟨⟨fun _ => not_lt.mp hav, fun _ => rfl⟩,
           fun hx => (nomatch hx), fun _ => rfl⟩

/-- The spec's failing deployment: six units requested. -/
def deployTx6 : InventoryTransaction :=
  { equipmentId := 1, type := TxType.deployment, quantity := 6 }

/-- C4 witness: the availability characterization instantiated at the
five-unit healthy asset and a deployment of six. -/
theorem deployment_availability_check_witness :
    (deployTx6.type = TxType.deployment ∧
      [sampleAsset].find? (fun x => x.id == deployTx6.equipmentId) =
        some sampleAsset) ∧
    (((processEquipmentTransaction deployTx6 [sampleAsset]).success = true ↔
        deployTx6.quantity ≤ (getInventoryStatus sampleAsset).available) ∧
      ((processEquipmentTransaction deployTx6 [sampleAsset]).success = false →
        (processEquipmentTransaction deployTx6 [sampleAsset]).message =
          "Insufficient available equipment" ∧
        (processEquipmentTransaction deployTx6 [sampleAsset]).updatedEquipment =
          none) ∧
      ((processEquipmentTransaction deployTx6 [sampleAsset]).success = true →
        (processEquipmentTransaction deployTx6 [sampleAsset]).updatedEquipment =
          some { sampleAsset with
                   inUse := sampleAsset.inUse + deployTx6.quantity })) :=
  ⟨⟨rfl, rfl⟩,
   deployment_availability_check deployTx6 [sampleAsset] sampleAsset rfl rfl⟩

/-- C8: a successful deployment of `q` followed by a successful return of
`q` restores `inUse` (and leaves `quantity` unchanged); only the degradation
record may differ, by the one usage tick applied on return. -/
theorem deployment_return_roundtrip (e e1 e2 : Equipment) (q : ℤ)
    (h1 : applyTx e
      { equipmentId := e.id, type := TxType.deployment, quantity := q } = some e1)
    (h2 : applyTx e1
      { equipmentId := e1.id, type := TxType.ret, quantity := q } = some e2) :
    e2.inUse = e.inUse ∧ e2.quantity = e.quantity := by
  unfold applyTx processEquipmentTransaction at h1 h2
  simp only [List.find?, beq_self_eq_true] at h1 h2
  by_cases hav : (getInventoryStatus e).available < q
  · simp [hav] at h1
  · simp only [if_neg hav] at h1
    simp at h1
    have he1i : e1.inUse = e.inUse + q := by rw [← h1]
    have he1q : e1.quantity = e.quantity := by rw [← h1]
    by_cases hret : e1.inUse < q
    · simp [hret] at h2
    · simp only [if_neg hret] at h2
      simp at h2
      have hi := congrArg Equipment.inUse h2
      have hqy := congrArg Equipment.quantity h2
      simp at hi hqy
      constructor
      · rw [← hi, he1i]; ring
      · rw [← hqy, he1q]

/-- The sample asset after a deployment of two units. -/
def depSample : Equipment := { sampleAsset with inUse := 2 }

/-- The sample asset after that deployment is returned: `inUse` back to 0,
one usage tick of degradation applied. -/
def retSample : Equipment :=
  { sampleAsset with
      inUse := 0
      degradation := { sampleAsset.degradation with currentValue := 99 } }

/-- C8 witness: deploy two units of the sample asset and return them. -/
theorem deployment_return_roundtrip_witness :
    (applyTx sampleAsset
        { equipmentId := sampleAsset.id, type := TxType.deployment,
          quantity := 2 } = some depSample ∧
      applyTx depSample
        { equipmentId := depSample.id, type := TxType.ret,
          quantity := 2 } = some retSample) ∧
    (retSample.inUse = sampleAsset.inUse ∧
      retSample.quantity = sampleAsset.quantity) := by
  have hd : applyTx sampleAsset
      { equipmentId := sampleAsset.id, type := TxType.deployment,
        quantity := 2 } = some depSample := by
    norm_num [applyTx, processEquipmentTransaction, getInventoryStatus,
      getHealthStatus, getHealthStatusD, List.find?, sampleAsset, depSample]
  have hr : applyTx depSample
      { equipmentId := depSample.id, type := TxType.ret,
        quantity := 2 } = some retSample := by
    norm_num [applyTx, processEquipmentTransaction, getInventoryStatus,
      getHealthStatus, getHealthStatusD, calculateDegradation,
      calculateDegradationD, List.find?, max_def, sampleAsset, depSample,
      retSample]
  exact ⟨⟨hd, hr⟩,
    deployment_return_roundtrip sampleAsset depSample retSample 2 hd hr⟩

/-- Shared step lemma: an accepted non-disposal transaction with positive
quantity preserves `0 ≤ inUse ≤ quantity`. -/
theorem applyTx_preserves_inUse_bounds (e e' : Equipment)
    (tx : InventoryTransaction)
    (hq : 0 < tx.quantity) (hnd : tx.type ≠ TxType.disposal)
    (hinv : 0 ≤ e.inUse ∧ e.inUse ≤ e.quantity)
    (h : applyTx e tx = some e') :
    0 ≤ e'.inUse ∧ e'.inUse ≤ e'.quantity := by
  unfold applyTx processEquipmentTransaction at h
  cases hfind : List.find? (fun x => x.id == tx.equipmentId) [e] with
  | none => rw [hfind] at h; simp at h
  | some f =>
    rw [hfind] at h
    have hfe : f = e := by
      have hmem := List.mem_of_find?_eq_some hfind
      simpa using hmem
    rw [hfe] at h
    clear hfind hfe
    cases htype : tx.type with
    | acquisition =>
      rw [htype] at h
      simp at h
      rw [← h]
      constructor
      · exact hinv.1
      · have := hinv.2
        simp only
        omega
    | deployment =>
      rw [htype] at h
      by_cases hav : (getInventoryStatus e).available < tx.quantity
      · simp [hav] at h
      · simp only [if_neg hav] at h
        simp at h
        have hav2 : tx.quantity ≤
            e.quantity - e.inUse -
              (if (getHealthStatus e).needsMaintenance then 1 else 0) := by
          have := not_lt.mp hav
          simpa [getInventoryStatus] using this
        rw [← h]
        constructor
        · have := hinv.1
          simp only
          omega
        · by_cases hm : (getHealthStatus e).needsMaintenance
          · rw [if_pos hm] at hav2
            simp only
            omega
          · rw [if_neg hm] at hav2
            simp only
            omega
    | ret =>
      rw [htype] at h
      by_cases hr : e.inUse < tx.quantity
      · simp [hr] at h
      · simp only [if_neg hr] at h
        simp at h
        have hr2 := not_lt.mp hr
        rw [← h]
        constructor
        · simp only
          omega
        · have := hinv.2
          simp only
          omega
    | disposal => exact absurd htype hnd

/-- C1 (amended): starting from an asset with `0 ≤ inUse ≤ quantity`, any
sequence of accepted acquisition, deployment and return transactions with
positive quantities preserves `0 ≤ inUse ≤ quantity`; an accepted DISPOSAL
transaction is excluded because it can drop `quantity` below `inUse`. -/
theorem inUse_le_quantity_preserved (e : Equipment)
    (txs : List InventoryTransaction)
    (hq : ∀ tx ∈ txs, 0 < tx.quantity)
    (hnd : ∀ tx ∈ txs, tx.type ≠ TxType.disposal)
    (hinv : 0 ≤ e.inUse ∧ e.inUse ≤ e.quantity)
    (e' : Equipment) (h : applyTxs e txs = some e') :
    0 ≤ e'.inUse ∧ e'.inUse ≤ e'.quantity := by
  induction txs generalizing e with
  | nil =>
    unfold applyTxs at h
    simp [List.foldlM] at h
    rw [← h]
    exact hinv
  | cons tx rest ih =>
    unfold applyTxs at h ih
    rw [List.foldlM_cons] at h
    cases hstep : applyTx e tx with
    | none =>
      rw [hstep] at h
      exact Option.noConfusion h
    | some e1 =>
      rw [hstep] at h
      replace h : List.foldlM applyTx e1 rest = some e' := h
      have hinv1 := applyTx_preserves_inUse_bounds e e1 tx
        (hq tx (List.mem_cons_self tx rest))
        (hnd tx (List.mem_cons_self tx rest)) hinv hstep
      exact ih e1 (fun t ht => hq t (List.mem_cons_of_mem tx ht))
        (fun t ht => hnd t (List.mem_cons_of_mem tx ht)) hinv1 h

/-- A disposal of three units against the deployed sample asset. -/
def disposalTx3 : InventoryTransaction :=
  { equipmentId := 1, type := TxType.disposal, quantity := 3 }

/-- C1 counterexample: the asset satisfies the invariant, the disposal is
accepted (`success = true`), and the accepted result violates
`inUse ≤ quantity` (three units still deployed, only two owned). -/
theorem disposal_breaks_inUse_le_quantity :
    (0 ≤ deployedAsset.inUse ∧ deployedAsset.inUse ≤ deployedAsset.quantity) ∧
    (processEquipmentTransaction disposalTx3 [deployedAsset]).success = true ∧
    (processEquipmentTransaction disposalTx3 [deployedAsset]).updatedEquipment =
      some { deployedAsset with quantity := 2 } ∧
    ¬ ({ deployedAsset with quantity := 2 } : Equipment).inUse ≤
        ({ deployedAsset with quantity := 2 } : Equipment).quantity := by
  refine ⟨(by decide), ?_, ?_, (by decide)⟩ <;> decide

/-- A deployment of two units against the sample asset. -/
def deployTx2 : InventoryTransaction :=
  { equipmentId := 1, type := TxType.deployment, quantity := 2 }

/-- C1 witness: the preservation theorem instantiated on the sample asset
and a single accepted deployment. -/
theorem inUse_le_quantity_preserved_witness :
    ((∀ tx ∈ [deployTx2], 0 < tx.quantity) ∧
      (∀ tx ∈ [deployTx2], tx.type ≠ TxType.disposal) ∧
      (0 ≤ sampleAsset.inUse ∧ sampleAsset.inUse ≤ sampleAsset.quantity) ∧
      applyTxs sampleAsset [deployTx2] = some depSample) ∧
    (0 ≤ depSample.inUse ∧ depSample.inUse ≤ depSample.quantity) := by
  have happly : applyTxs sampleAsset [deployTx2] = some depSample := by
    norm_num [applyTxs, applyTx, processEquipmentTransaction,
      getInventoryStatus, getHealthStatus, getHealthStatusD, List.find?,
      List.foldlM_cons, List.foldlM_nil, sampleAsset, depSample, deployTx2]
  refine ⟨⟨(by decide), (by decide), (by decide), happly⟩, ?_⟩
  exact inUse_le_quantity_preserved sampleAsset [deployTx2]
    (by decide) (by decide) (by decide) depSample happly

/-- Inserting into the stable sort is a permutation of consing. -/
theorem insertByPriority_perm (n : ProcurementNeed) (l : List ProcurementNeed) :
    (insertByPriority n l).Perm (n :: l) := by
  induction l with
  | nil => simp [insertByPriority]
  | cons m rest ih =>
    unfold insertByPriority
    by_cases hc : priorityOrder m.priority ≤ priorityOrder n.priority
    · rw [if_pos hc]
      exact (ih.cons m).trans (List.Perm.swap n m rest)
    · rw [if_neg hc]

/-- The stable priority sort permutes its input. -/
theorem sortByPriority_perm (l : List ProcurementNeed) :
    (sortByPriority l).Perm l := by
  induction l with
  | nil => simp [sortByPriority]
  | cons n rest ih =>
    unfold sortByPriority
    exact (insertByPriority_perm n (sortByPriority rest)).trans (ih.cons n)

/-- Any need emitted by the equipment branch is tagged `equipment`. -/
theorem equipmentNeed_itemType {e : Equipment} {n : ProcurementNeed}
    (h : equipmentNeed e = some n) : n.itemType = ItemType.equipment := by
  unfold equipmentNeed at h
  dsimp only at h
  split at h
  · injection h with h'
    rw [← h']
  · exact Option.noConfusion h

/-- A need emitted by the consumable branch is fully determined by the
consumable, and is emitted only at or below the reorder point. -/
theorem consumableNeed_eq_some {c : Consumable} {n : ProcurementNeed}
    (h : consumableNeed c = some n) :
    c.stockLevel ≤ c.reorderPoint ∧
    n = { itemType := ItemType.consumable
          itemId := c.id
          quantity := c.reorderPoint * 2 - c.stockLevel
          estimatedCost := ((c.reorderPoint * 2 - c.stockLevel : ℤ) : ℚ) *
            c.costPerUnit
          priority := if c.stockLevel ≤ c.minimumStock then Priority.high
                      else Priority.medium
          reason := "Stock below reorder point" } := by
  unfold consumableNeed at h
  split at h
  case isTrue hc =>
    injection h with h'
    exact ⟨hc, h'.symm⟩
  case isFalse hc => exact Option.noConfusion h

/-- Count of consumable needs for a given id over the consumable branch. -/
theorem countP_filterMap_consumableNeed (cid : Nat) (cs : List Consumable) :
    (cs.filterMap consumableNeed).countP
      (fun n => decide (n.itemType = ItemType.consumable ∧ n.itemId = cid)) =
    cs.countP
      (fun x => decide (x.id = cid ∧ x.stockLevel ≤ x.reorderPoint)) := by
  induction cs with
  | nil => rfl
  | cons x xs ih =>
    rw [List.filterMap_cons]
    cases hx : consumableNeed x with
    | none =>
      have hgt : ¬ x.stockLevel ≤ x.reorderPoint := by
        intro hle
        unfold consumableNeed at hx
        rw [if_pos hle] at hx
        exact Option.noConfusion hx
      simpa [List.countP_cons, hgt] using ih
    | some n =>
      obtain ⟨hle, hn⟩ := consumableNeed_eq_some hx
      subst hn
      by_cases hid : x.id = cid <;>
        simpa [List.countP_cons, hid, hle] using ih

/-- The equipment branch contributes no consumable-tagged need. -/
theorem countP_filterMap_equipmentNeed (cid : Nat) (eqs : List Equipment) :
    (eqs.filterMap equipmentNeed).countP
      (fun n => decide (n.itemType = ItemType.consumable ∧ n.itemId = cid))
      = 0 := by
  rw [List.countP_eq_zero]
  intro n hn
  obtain ⟨e, _, he⟩ := List.mem_filterMap.mp hn
  have ht := equipmentNeed_itemType he
  simp [ht]

/-- When exactly one list entry carries `c.id` and `c` is among them, any
entry with that id is `c` itself. -/
theorem uniq_id_eq {c x : Consumable} {cs : List Consumable}
    (hmem : c ∈ cs)
    (huniq : cs.countP (fun y => decide (y.id = c.id)) = 1)
    (hx : x ∈ cs) (hid : x.id = c.id) : x = c := by
  rw [List.countP_eq_length_filter] at huniq
  obtain ⟨a, ha⟩ := List.length_eq_one.mp huniq
  have hcf : c ∈ cs.filter (fun y => decide (y.id = c.id)) :=
    List.mem_filter.mpr ⟨hmem, by simp⟩
  have hxf : x ∈ cs.filter (fun y => decide (y.id = c.id)) :=
    List.mem_filter.mpr ⟨hx, by simp [hid]⟩
  rw [ha] at hcf hxf
  exact (List.mem_singleton.mp hxf).trans (List.mem_singleton.mp hcf).symm

/-- C5: a consumable whose id occurs once in the list yields exactly one
procurement need when `stockLevel ≤ reorderPoint` (and none otherwise), and
that need carries `quantity = 2 * reorderPoint - stockLevel` and priority
`high` iff `stockLevel ≤ minimumStock`, else `medium`. -/
theorem generateNeeds_consumable_reorder (equipment : List Equipment)
    (consumables : List Consumable) (c : Consumable)
    (hmem : c ∈ consumables)
    (huniq : consumables.countP (fun x => decide (x.id = c.id)) = 1) :
    ((generateProcurementNeeds equipment consumables).countP
        (fun n => decide (n.itemType = ItemType.consumable ∧ n.itemId = c.id))
      = if c.stockLevel ≤ c.reorderPoint then 1 else 0) ∧
    (∀ n ∈ generateProcurementNeeds equipment consumables,
      n.itemType = ItemType.consumable → n.itemId = c.id →
      n.quantity = 2 * c.reorderPoint - c.stockLevel ∧
      n.priority = (if c.stockLevel ≤ c.minimumStock then Priority.high
                    else Priority.medium)) := by
  have hperm := sortByPriority_perm
    (equipment.filterMap equipmentNeed ++ consumables.filterMap consumableNeed)
  constructor
  · unfold generateProcurementNeeds
    dsimp only
    rw [hperm.countP_eq, List.countP_append, countP_filterMap_equipmentNeed,
      countP_filterMap_consumableNeed]
    by_cases hsc : c.stockLevel ≤ c.reorderPoint
    · rw [if_pos hsc]
      have hsame : consumables.countP
          (fun x => decide (x.id = c.id ∧ x.stockLevel ≤ x.reorderPoint)) =
          consumables.countP (fun y => decide (y.id = c.id)) := by
        apply List.countP_congr
        intro x hx
        by_cases hid : x.id = c.id
        · have hxc := uniq_id_eq hmem huniq hx hid
          subst hxc
          simp [hsc]
        · simp [hid]
      rw [hsame, huniq]
    · rw [if_neg hsc]
      have hzero : consumables.countP
          (fun x => decide (x.id = c.id ∧ x.stockLevel ≤ x.reorderPoint))
          = 0 := by
        rw [List.countP_eq_zero]
        intro x hx
        by_cases hid : x.id = c.id
        · have hxc := uniq_id_eq hmem huniq hx hid
          subst hxc
          simp [hsc]
        · simp [hid]
      rw [hzero]
  · intro n hn htype hid
    have hn' : n ∈ equipment.filterMap equipmentNeed ++
        consumables.filterMap consumableNeed := by
      unfold generateProcurementNeeds at hn
      exact hperm.mem_iff.mp hn
    rcases List.mem_append.mp hn' with hl | hr
    · obtain ⟨e0, _, he0⟩ := List.mem_filterMap.mp hl
      have ht := equipmentNeed_itemType he0
      rw [ht] at htype
      exact absurd htype (by decide)
    · obtain ⟨x, hxmem, hx⟩ := List.mem_filterMap.mp hr
      obtain ⟨hle, hn2⟩ := consumableNeed_eq_some hx
      subst hn2
      have hid' : x.id = c.id := hid
      have hxc := uniq_id_eq hmem huniq hxmem hid'
      subst hxc
      constructor
      · show x.reorderPoint * 2 - x.stockLevel = 2 * x.reorderPoint - x.stockLevel
        ring
      · rfl

/-- C5 witness: the scenario consumable (stock 5, minimum 10, reorder 20)
instantiates the characterization. -/
theorem generateNeeds_consumable_reorder_witness :
    (sampleConsumable ∈ [sampleConsumable] ∧
      [sampleConsumable].countP
        (fun x => decide (x.id = sampleConsumable.id)) = 1) ∧
    (((generateProcurementNeeds [] [sampleConsumable]).countP
        (fun n => decide (n.itemType = ItemType.consumable ∧
          n.itemId = sampleConsumable.id))
      = if sampleConsumable.stockLevel ≤ sampleConsumable.reorderPoint
        then 1 else 0) ∧
      (∀ n ∈ generateProcurementNeeds [] [sampleConsumable],
        n.itemType = ItemType.consumable → n.itemId = sampleConsumable.id →
        n.quantity = 2 * sampleConsumable.reorderPoint -
          sampleConsumable.stockLevel ∧
        n.priority = (if sampleConsumable.stockLevel ≤
            sampleConsumable.minimumStock then Priority.high
          else Priority.medium))) :=
  ⟨⟨List.mem_singleton.mpr rfl, (by decide)⟩,
   generateNeeds_consumable_reorder [] [sampleConsumable] sampleConsumable
     (List.mem_singleton.mpr rfl) (by decide)⟩

/-- A property preserved by every step of a fold is preserved by the fold. -/
theorem foldlPreserves {α σ : Type} (f : σ → α → σ) (P : σ → Prop)
    (hf : ∀ s a, P s → P (f s a)) :
    ∀ (l : List α) (s : σ), P s → P (l.foldl f s) := by
  intro l
  induction l with
  | nil => intro s hs; exact hs
  | cons a rest ih => intro s hs; exact ih (f s a) (hf s a hs)

/-- The equipment step of the budgeted plan keeps
`spent + remaining = budget` and `remaining ≥ 0`. -/
theorem planEquipmentStep_inv (budget : ℚ) (acc : List ProcurementNeed × ℚ)
    (eq : Equipment)
    (h : ((acc.1.map ProcurementNeed.estimatedCost).sum + acc.2 = budget) ∧
      0 ≤ acc.2) :
    (((planEquipmentStep acc eq).1.map ProcurementNeed.estimatedCost).sum +
        (planEquipmentStep acc eq).2 = budget) ∧
      0 ≤ (planEquipmentStep acc eq).2 := by
  unfold planEquipmentStep
  by_cases hc : (predictMaintenanceNeeds eq {}).priority = Priority.high ∧
      acc.2 ≥ eq.acquisitionCost
  · rw [if_pos hc]
    constructor
    · simp only [List.map_append, List.sum_append, List.map_cons,
        List.map_nil, List.sum_cons, List.sum_nil]
      have := h.1
      linarith
    · have := hc.2
      dsimp only
      linarith
  · rw [if_neg hc]
    exact h

/-- The consumable step of the budgeted plan keeps
`spent + remaining = budget` and `remaining ≥ 0`. -/
theorem planConsumableStep_inv (budget : ℚ) (acc : List ProcurementNeed × ℚ)
    (c : Consumable)
    (h : ((acc.1.map ProcurementNeed.estimatedCost).sum + acc.2 = budget) ∧
      0 ≤ acc.2) :
    (((planConsumableStep acc c).1.map ProcurementNeed.estimatedCost).sum +
        (planConsumableStep acc c).2 = budget) ∧
      0 ≤ (planConsumableStep acc c).2 := by
  unfold planConsumableStep
  by_cases hc : acc.2 ≥ consumableOrderCost c
  · rw [if_pos hc]
    constructor
    · simp only [List.map_append, List.sum_append, List.map_cons,
        List.map_nil, List.sum_cons, List.sum_nil]
      have := h.1
      linarith
    · dsimp only
      linarith
  · rw [if_neg hc]
    exact h

/-- C6: for any nonnegative budget, the cost of the budgeted procurement
plan never exceeds the budget — a need is accepted only while its estimated
cost fits the remaining budget, which is decremented on each acceptance and
never goes negative. -/
theorem budgeted_plan_within_budget (equipment : List Equipment)
    (consumables : List Consumable) (budget : ℚ) (hb : 0 ≤ budget) :
    ((generateProcurementPlan equipment consumables budget).map
        ProcurementNeed.estimatedCost).sum ≤ budget := by
  unfold generateProcurementPlan
  have hA := foldlPreserves planEquipmentStep
    (fun acc => ((acc.1.map ProcurementNeed.estimatedCost).sum + acc.2 =
      budget) ∧ 0 ≤ acc.2)
    (planEquipmentStep_inv budget) equipment ([], budget) ⟨by simp, hb⟩
  have hB := foldlPreserves planConsumableStep
    (fun acc => ((acc.1.map ProcurementNeed.estimatedCost).sum + acc.2 =
      budget) ∧ 0 ≤ acc.2)
    (planConsumableStep_inv budget)
    (sortByDepletion
      (consumables.filter (fun c => c.stockLevel ≤ c.minimumStock)))
    (equipment.foldl planEquipmentStep ([], budget)) hA
  dsimp only
  linarith [hB.1, hB.2]

/-- C6 witness: a budget of 100 on the sample data. -/
theorem budgeted_plan_within_budget_witness :
    (0 ≤ (100 : ℚ)) ∧
    ((generateProcurementPlan [] [sampleConsumable] 100).map
        ProcurementNeed.estimatedCost).sum ≤ 100 :=
  ⟨(by norm_num),
   budgeted_plan_within_budget [] [sampleConsumable] 100 (by norm_num)⟩

/-- C7 (amended): the combination check walks the line items in order and
fails with a message at the first unresolved id, shortage
(`available = quantity - inUse`, no maintenance deduction here), or
degradation with ABSOLUTE `currentValue < 25` — the health gate is on the
raw current value, not the fraction `currentValue / maxValue`; it returns
`valid = true` exactly when every line item resolves, has enough available
quantity, and has `currentValue ≥ 25`. -/
theorem validateCombination_valid_iff (st : ManagerState)
    (items : List CombinationItem) :
    (validateCombination st items).valid = true ↔
      ∀ item ∈ items, ∃ e, getEquipmentById st item.id = some e ∧
        item.quantity ≤ e.quantity - e.inUse ∧
        25 ≤ e.degradation.currentValue := by
  induction items with
  | nil => simp [validateCombination]
  | cons item rest ih =>
    unfold validateCombination
    cases hfind : getEquipmentById st item.id with
    | none =>
      dsimp only
      constructor
      · intro hx
        exact (nomatch hx)
      · intro hall
        obtain ⟨e, he, _⟩ := hall item (List.mem_cons_self item rest)
        rw [hfind] at he
        exact Option.noConfusion he
    | some equipment =>
      dsimp only
      have hdg : getDegradation st item.id = some equipment.degradation := by
        rw [getDegradation, hfind]
        rfl
      by_cases hav : equipment.quantity - equipment.inUse < item.quantity
      · rw [if_pos hav]
        constructor
        · intro hx
          exact (nomatch hx)
        · intro hall
          obtain ⟨e, he, hq, _⟩ := hall item (List.mem_cons_self item rest)
          rw [hfind] at he
          injection he with he'
          subst he'
          exact absurd hq (not_le.mpr hav)
      · rw [if_neg hav, hdg]
        dsimp only
        by_cases hdeg : equipment.degradation.currentValue < 25
        · rw [if_pos hdeg]
          constructor
          · intro hx
            exact (nomatch hx)
          · intro hall
            obtain ⟨e, he, _, hh⟩ := hall item (List.mem_cons_self item rest)
            rw [hfind] at he
            injection he with he'
            subst he'
            exact absurd hh (not_le.mpr hdeg)
        · rw [if_neg hdeg]
          rw [ih, List.forall_mem_cons]
          constructor
          · intro hrest
            exact ⟨⟨equipment, hfind, not_lt.mp hav, not_lt.mp hdeg⟩, hrest⟩
          · intro hboth
            exact hboth.2

/-- The combination line item requesting one unit of the 20%-health asset. -/
def combFraction : List CombinationItem := [{ id := 9, quantity := 1 }]

/-- The manager state holding only the 20%-health asset. -/
def stFraction : ManagerState := { equipment := [fractionAsset] }

/-- C7 counterexample: the referenced asset's health fraction is 20%, below
the claimed minimum fraction of 25%, yet `validateCombination` accepts the
combination because its gate compares the absolute `currentValue` (40)
against 25. -/
theorem validateCombination_fraction_cx :
    (validateCombination stFraction combFraction).valid = true ∧
    fractionAsset.degradation.currentValue /
        fractionAsset.degradation.maxValue < 1 / 4 := by
  constructor
  · decide
  · norm_num [fractionAsset, sampleAsset]

/-- Reading below the old heap top is unaffected by allocating one object
and writing at the old top. -/
theorem frame_alloc_set (h : Heap) (x y : HObj) (i : Nat)
    (hi : i < h.length) :
    ((h ++ [x]).set h.length y)[i]? = h[i]? := by
  rw [List.getElem?_set_ne (Nat.ne_of_lt hi).symm]
  exact List.getElem?_append_left hi

/-- Reading below the old heap top is unaffected by allocating one
object. -/
theorem frame_alloc (h : Heap) (x : HObj) (i : Nat) (hi : i < h.length) :
    (h ++ [x])[i]? = h[i]? :=
  List.getElem?_append_left hi

/-- Reading below the old heap top is unaffected by the
allocate/write/allocate/write pattern of the `return` branch. -/
theorem frame_alloc_set_alloc_set (h : Heap) (x y z w : HObj) (i : Nat)
    (hi : i < h.length) :
    (((((h ++ [x]).set h.length y) ++ [z]).set h.length w))[i]? = h[i]? := by
  rw [List.getElem?_set_ne (Nat.ne_of_lt hi).symm]
  rw [List.getElem?_append_left (by simp; omega)]
  exact frame_alloc_set h x y i hi

/-- The equipment transaction processor writes only at freshly allocated
addresses: every address of the caller's heap reads unchanged. -/
theorem processEquipmentTransactionH_frame (tx : InventoryTransaction)
    (refs : List Nat) (h : Heap) (i : Nat) (hi : i < h.length) :
    ((processEquipmentTransactionH tx refs h).1)[i]? = h[i]? := by
  unfold processEquipmentTransactionH
  cases hf : findEquipAddr h refs tx.equipmentId with
  | none => rfl
  | some af =>
    obtain ⟨a, e⟩ := af
    dsimp only
    cases hd : h[e.degradation]? with
    | none => rfl
    | some dobj =>
      cases dobj with
      | equip e2 => rfl
      | cons c2 => rfl
      | deg d =>
        dsimp only
        cases htt : tx.type with
        | acquisition =>
          dsimp only
          exact frame_alloc_set h _ _ i hi
        | deployment =>
          dsimp only
          split <;> split <;>
            first
              | exact frame_alloc h _ i hi
              | exact frame_alloc_set h _ _ i hi
        | ret =>
          dsimp only
          split
          · exact frame_alloc h _ i hi
          · exact frame_alloc_set_alloc_set h _ _ _ _ i hi
        | disposal =>
          dsimp only
          split
          · exact frame_alloc h _ i hi
          · exact frame_alloc_set h _ _ i hi

/-- The consumable transaction processor writes only at freshly allocated
addresses: every address of the caller's heap reads unchanged. -/
theorem processConsumableTransactionH_frame (tx : ConsumableTransaction)
    (refs : List Nat) (h : Heap) (j : Nat) (hj : j < h.length) :
    ((processConsumableTransactionH tx refs h).1)[j]? = h[j]? := by
  unfold processConsumableTransactionH
  cases hf : findConsAddr h refs tx.consumableId with
  | none => rfl
  | some af =>
    obtain ⟨a, c⟩ := af
    dsimp only
    cases htt : tx.type with
    | purchase =>
      dsimp only
      exact frame_alloc_set h _ _ j hj
    | use =>
      dsimp only
      split
      · exact frame_alloc h _ j hj
      · exact frame_alloc_set h _ _ j hj
    | disposal =>
      dsimp only
      split
      · exact frame_alloc h _ j hj
      · exact frame_alloc_set h _ _ j hj

/-- C9: neither transaction processor mutates any caller-supplied object,
on success or failure — the updated record lives at a freshly allocated
address, so every pre-existing heap address reads back unchanged. -/
theorem transaction_processors_frame (txE : InventoryTransaction)
    (txC : ConsumableTransaction) (equipmentRefs consumableRefs : List Nat)
    (h h' : Heap) (i j : Nat) (hi : i < h.length) (hj : j < h'.length) :
    ((processEquipmentTransactionH txE equipmentRefs h).1)[i]? = h[i]? ∧
    ((processConsumableTransactionH txC consumableRefs h').1)[j]? = h'[j]? :=
  ⟨processEquipmentTransactionH_frame txE equipmentRefs h i hi,
   processConsumableTransactionH_frame txC consumableRefs h' j hj⟩

/-- A two-object heap: a degradation record at address 0 and an equipment
object referencing it at address 1. -/
def sampleHeap : Heap :=
  [HObj.deg sampleAsset.degradation,
   HObj.equip { id := 1, quantity := 5, inUse := 0, degradation := 0 }]

/-- A one-object consumable heap. -/
def sampleConsHeap : Heap :=
  [HObj.cons { id := 7, stockLevel := 5, reorderPoint := 20 }]

/-- C9 witness: a return transaction (the branch that also reallocates the
degradation record) and a purchase, on concrete heaps. -/
theorem transaction_processors_frame_witness :
    (0 < sampleHeap.length ∧ 0 < sampleConsHeap.length) ∧
    (((processEquipmentTransactionH
          { equipmentId := 1, type := TxType.acquisition, quantity := 2 }
          [1] sampleHeap).1)[0]? = sampleHeap[0]? ∧
      ((processConsumableTransactionH
          { consumableId := 7, type := ConsTxType.purchase, quantity := 4 }
          [0] sampleConsHeap).1)[0]? = sampleConsHeap[0]?) :=
  ⟨⟨(by decide), (by decide)⟩,
   transaction_processors_frame
     { equipmentId := 1, type := TxType.acquisition, quantity := 2 }
     { consumableId := 7, type := ConsTxType.purchase, quantity := 4 }
     [1] [0] sampleHeap sampleConsHeap 0 0 (by decide) (by decide)⟩

/-- C10: in `projectCosts` the simulated usage is `{ days: 30 * index }`, so
an asset whose degradation type is `cycles` or `hours` keeps the same
degradation record — hence the same degradation factor — in every projected
month, and its per-period contribution (operational, maintenance and all
other components) is identical across all months. -/
theorem projection_constant_for_nontime (item : Equipment) (i j : ℕ)
    (htype : item.degradation.type ≠ DegradationType.time) :
    monthlyItemContribution item i = monthlyItemContribution item j ∧
    calculateDegradation item { days := some ((30 : ℚ) * i) } =
      calculateDegradation item { days := some ((30 : ℚ) * j) } := by
  have hdeg : ∀ k : ℕ,
      calculateDegradation item { days := some ((30 : ℚ) * k) } =
        item.degradation := by
    intro k
    unfold calculateDegradation calculateDegradationD
    cases htd : item.degradation.type with
    | cycles => rfl
    | hours => rfl
    | time => exact absurd htd htype
  constructor
  · unfold monthlyItemContribution
    rw [hdeg i, hdeg j]
  · rw [hdeg i, hdeg j]

/-- C10 witness: the cycles-type sample asset contributes identically in
month 0 and month 5. -/
theorem projection_constant_for_nontime_witness :
    (sampleAsset.degradation.type ≠ DegradationType.time) ∧
    (monthlyItemContribution sampleAsset 0 = monthlyItemContribution sampleAsset 5 ∧
      calculateDegradation sampleAsset { days := some ((30 : ℚ) * (0 : ℕ)) } =
        calculateDegradation sampleAsset { days := some ((30 : ℚ) * (5 : ℕ)) }) :=
  ⟨(by decide), projection_constant_for_nontime sampleAsset 0 5 (by decide)⟩

end BusinessCosts
